import Mathlib

set_option linter.unusedVariables false

/-!
Shallow embedding of the fair-share scheduler in `kernel/sched/qhmp_fair.c`
(weighted virtual-time engine, load-tracker decay, bandwidth throttle, HMP
placement, tunable update handler), together with theorems checking the
natural-language specification against it.

Machine integers are modelled as `Nat` reduced modulo `2^64` (`u64`) with an
explicit two's-complement reading for `s64` comparisons, exactly where the C
code relies on wraparound.
-/

namespace QhmpFair

/-- `2^64`, the modulus of the kernel's `u64` arithmetic. -/
def U64 : Nat := 18446744073709551616

/-- `2^63`, the sign boundary of `s64`. -/
def HALF64 : Nat := 9223372036854775808

/-- Two's-complement (`s64`) reading of a 64-bit value, as in C casts
`(s64)x` of a `u64` expression. -/
def s64 (x : Nat) : Int :=
  if x % U64 < HALF64 then ((x % U64 : Nat) : Int)
  else ((x % U64 : Nat) : Int) - (U64 : Int)

/-- `u64` subtraction `a - b` (wrapping mod `2^64`). -/
def u64sub (a b : Nat) : Nat := (a % U64 + (U64 - b % U64)) % U64

/-- `u64` addition `a + b` (wrapping mod `2^64`). -/
def u64add (a b : Nat) : Nat := (a + b) % U64

/-- The `u64` bit pattern of a signed 64-bit value (C cast `(u64)i`). -/
def u64ofInt (i : Int) : Nat := (i % (U64 : Int)).toNat

theorem U64_eq : U64 = 2 ^ 64 := by decide
theorem HALF64_eq : HALF64 = 2 ^ 63 := by decide

/-- The signed difference computed through `u64` wraparound agrees with the
true difference of the (unbounded) counters whenever their distance is
below `2^63`. -/
theorem s64_u64sub_eq (a b : Nat)
    (h₁ : (a : Int) - b < HALF64) (h₂ : (b : Int) - a ≤ HALF64) :
    s64 (u64sub (a % U64) (b % U64)) = (a : Int) - b := by
  unfold s64 u64sub U64 HALF64 at *
  omega

/-! ### Virtual-runtime comparisons (`max_vruntime` / `min_vruntime` /
`entity_before`, qhmp_fair.c lines 458-480) -/

/-- `max_vruntime`: picks `vruntime` when its signed distance above
`max_vruntime` is positive. -/
def max_vruntime (mx v : Nat) : Nat :=
  if 0 < s64 (u64sub v mx) then v else mx

/-- `min_vruntime`: picks `vruntime` when its signed distance below
`min_vruntime` is negative. -/
def min_vruntime (mn v : Nat) : Nat :=
  if s64 (u64sub v mn) < 0 then v else mn

/-- A schedulable entity; `id` stands for the entity's identity (the C code
compares entities by pointer). -/
structure Ent where
  id : Nat
  weight : Nat
  vruntime : Nat
  deriving DecidableEq, Repr

/-- `entity_before(a, b)`: `(s64)(a->vruntime - b->vruntime) < 0`. -/
def entity_before (a b : Ent) : Bool :=
  s64 (u64sub a.vruntime b.vruntime) < 0

/-- `update_min_vruntime` (lines 482-506): raise the queue watermark to the
smaller of the current entity's and the cached leftmost entity's vruntime,
never letting it go backwards. `curr`/`leftmost` carry the vruntimes of
`cfs_rq->curr` and of the `rb_leftmost` entity when they exist. -/
def update_min_vruntime (old : Nat) (curr leftmost : Option Nat) : Nat :=
  let vruntime := old
  let vruntime := match curr with
    | some c => c
    | none => vruntime
  let vruntime := match leftmost with
    | some l =>
      match curr with
      | none => l
      | some c => min_vruntime c l
    | none => vruntime
  max_vruntime old vruntime

/-! ### Fixed-point weight arithmetic (`__calc_delta`, lines 204-258) -/

/-- `WMULT_CONST = ~0U`. -/
def WMULT_CONST : Nat := 4294967295

/-- `NICE_0_LOAD` (scale_load_down-normalized reference weight). -/
def NICE_0_LOAD : Nat := 1024

/-- `__update_inv_weight` on a load weight `w` (with `inv_weight` treated as
always recomputed: `update_load_add`/`sub`/`set` zero the cache). -/
def inv_weight (w : Nat) : Nat :=
  if WMULT_CONST ≤ w then 1
  else if w = 0 then WMULT_CONST
  else WMULT_CONST / w

/-- `mul_u64_u32_shr(a, mul, shift)`: 128-bit product shifted right and
truncated to `u64`. -/
def mul_u64_u32_shr (a mul shift : Nat) : Nat :=
  (((a % U64) * (mul % 4294967296)) >>> shift) % U64

/-- The `while (fact >> 32) { fact >>= 1; shift--; }` normalization loops of
`__calc_delta`, written with fuel (64 halvings always suffice for a product
of two 64-bit values; the C loop runs at most that often). -/
def factShiftAux : Nat → Nat → Nat → Nat × Nat
  | 0, fact, shift => (fact, shift)
  | fuel + 1, fact, shift =>
    if fact < 4294967296 then (fact, shift)
    else factShiftAux fuel (fact / 2) (shift - 1)

def factShift (fact shift : Nat) : Nat × Nat := factShiftAux 64 fact shift

/-- `__calc_delta(delta_exec, weight, lw)` = `delta_exec * weight / lw.weight`
in 32.32 fixed point. `lwWeight` is `lw->weight`. -/
def calcDelta (delta_exec weight lwWeight : Nat) : Nat :=
  let p := factShift (weight % U64) 32
  let fact := (p.1 % 4294967296) * inv_weight lwWeight
  let q := factShift fact p.2
  mul_u64_u32_shr delta_exec q.1 q.2

/-- `calc_delta_fair(delta, se)`: identity at `NICE_0_LOAD`, else scaled by
the inverse weight. `w` is `se->load.weight`. -/
def calc_delta_fair (delta w : Nat) : Nat :=
  if w ≠ NICE_0_LOAD then calcDelta delta NICE_0_LOAD w else delta

/-! ### Scheduling period and slice (lines 637-679) -/

/-- default `sysctl_sched_latency` (line 51): 6 ms. -/
def sysctl_sched_latency : Nat := 6000000

/-- default `sysctl_sched_min_granularity` (line 70): 0.75 ms. -/
def sysctl_sched_min_granularity : Nat := 750000

/-- default `sched_nr_latency` (line 76): latency / min granularity = 8. -/
def sched_nr_latency : Nat := 8

/-- default `sysctl_sched_wakeup_granularity` (line 100): 1 ms. -/
def sysctl_sched_wakeup_granularity : Nat := 1000000

/-- `__sched_period(nr_running)`:
`p = (nr <= nl) ? latency : nr * min_granularity`. -/
def sched_period (nr_running : Nat) : Nat :=
  if sched_nr_latency < nr_running then
    nr_running * sysctl_sched_min_granularity
  else
    sysctl_sched_latency

/-- A scheduling entity as used by the slice/tick/placement code. -/
structure SE where
  weight : Nat
  vruntime : Nat
  sum_exec_runtime : Nat
  prev_sum_exec_runtime : Nat
  on_rq : Bool
  deriving DecidableEq, Repr

/-- The per-queue state consulted by `sched_slice` / `check_preempt_tick` /
`place_entity` at one hierarchy level (flat `!CONFIG_FAIR_GROUP_SCHED`
configuration: `for_each_sched_entity` visits the entity once). -/
structure Cfs where
  nr_running : Nat
  loadWeight : Nat
  minVruntime : Nat
  deriving DecidableEq, Repr

/-- `sched_slice(cfs_rq, se)`: period split proportionally to weight
(lines 651-671; flat hierarchy, one loop iteration). -/
def sched_slice (cfs : Cfs) (se : SE) : Nat :=
  let slice := sched_period (cfs.nr_running + (if se.on_rq then 0 else 1))
  let lw := if se.on_rq then cfs.loadWeight else cfs.loadWeight + se.weight
  calcDelta slice se.weight lw

/-- `sched_vslice(cfs_rq, se)` = `calc_delta_fair(sched_slice(cfs_rq, se), se)`. -/
def sched_vslice (cfs : Cfs) (se : SE) : Nat :=
  calc_delta_fair (sched_slice cfs se) se.weight

/-- `sched_slice` for `k` runnable equal-weight (`NICE_0_LOAD`) tasks on a
single queue, the running one included (`on_rq` set). -/
def equalWeightSlice (k : Nat) : Nat :=
  sched_slice ⟨k, k * NICE_0_LOAD, 0⟩ ⟨NICE_0_LOAD, 0, 0, 0, true⟩

/-! ### Tick preemption (`check_preempt_tick`, lines 5344-5379) -/

/-- `check_preempt_tick(cfs_rq, curr)` with `leftVr` the vruntime of the
leftmost queued entity (`__pick_first_entity`; the caller `entity_tick`
guarantees `nr_running > 1`, so it exists). Returns whether
`resched_curr` is requested. -/
def check_preempt_tick (cfs : Cfs) (curr : SE) (leftVr : Nat) : Bool :=
  if sched_slice cfs curr <
      u64sub curr.sum_exec_runtime curr.prev_sum_exec_runtime then true
  else if u64sub curr.sum_exec_runtime curr.prev_sum_exec_runtime <
      sysctl_sched_min_granularity then false
  else if s64 (u64sub curr.vruntime leftVr) < 0 then false
  else decide ((sched_slice cfs curr : Int) < s64 (u64sub curr.vruntime leftVr))

/-! ### Placement on enqueue (`place_entity`, lines 5172-5202) -/

/-- Modelled from the spec: the feature bits read through `sched_feat(...)`
live in `kernel/sched/features.h`, which is not under `src/`; the spec
describes the sleep bonus as "optionally minus a sleep bonus of up to one
scheduling latency period, halved by a tunable" and denied to brand-new
entities, so the flags are carried explicitly (their upstream defaults are
`START_DEBIT = true`, `GENTLE_FAIR_SLEEPERS = true`,
`STRICT_SKIP_BUDDY = false`). -/
structure Features where
  start_debit : Bool
  gentle_fair_sleepers : Bool
  strict_skip_buddy : Bool
  deriving DecidableEq, Repr

/-- `place_entity(cfs_rq, se, initial)`: result is the new `se->vruntime`. -/
def place_entity (f : Features) (cfs : Cfs) (se : SE) (initial : Bool) : Nat :=
  let vruntime := cfs.minVruntime
  let vruntime :=
    if initial && f.start_debit then u64add vruntime (sched_vslice cfs se)
    else vruntime
  let vruntime :=
    if !initial then
      let thresh :=
        if f.gentle_fair_sleepers then sysctl_sched_latency >>> 1
        else sysctl_sched_latency
      u64sub vruntime thresh
    else vruntime
  max_vruntime se.vruntime vruntime

/-! ### Wakeup granularity guard and `pick_next_entity`
(lines 5422-5472 and 7406-7454) -/

/-- `wakeup_gran(curr, se)`: the wakeup granularity converted to virtual
time in `se`'s units. -/
def wakeup_gran (_curr se : Ent) : Nat :=
  calc_delta_fair sysctl_sched_wakeup_granularity se.weight

/-- `wakeup_preempt_entity(curr, se)`: -1 / 0 / 1 by the position of
`se`'s vruntime relative to `curr`'s, with a one-granularity band. -/
def wakeup_preempt_entity (curr se : Ent) : Int :=
  let vdiff := s64 (u64sub curr.vruntime se.vruntime)
  if vdiff ≤ 0 then -1
  else if (wakeup_gran curr se : Int) < vdiff then 1
  else 0

/-- The slice of queue state read by `pick_next_entity`: the (optional)
running entity, the cached leftmost tree entity, the tree entity following
it (`__pick_next_entity` of the leftmost), and the three buddies. -/
structure PickState where
  curr : Option Ent
  leftmost : Option Ent
  second : Option Ent
  last : Option Ent
  next : Option Ent
  skip : Option Ent
  deriving DecidableEq, Repr

/-- The `left` candidate of `pick_next_entity`: the leftmost tree entity,
replaced by `curr` when the tree is empty or `curr` is before it. -/
def pick_left (st : PickState) : Option Ent :=
  match st.leftmost, st.curr with
  | none, c => c
  | some l, none => some l
  | some l, some c => if entity_before c l then some c else some l

/-- The runner-up (`second`) candidate computed inside the skip branch of
`pick_next_entity`: the first tree entity when the skipped pick is `curr`,
otherwise the tree entity following the leftmost, replaced by `curr` when
absent or when `curr` is before it. -/
def pick_second (st : PickState) (left : Ent) : Option Ent :=
  if some left = st.curr then st.leftmost
  else
    match st.second, st.curr with
    | none, c => c
    | some s2, none => some s2
    | some s2, some c => if entity_before c s2 then some c else some s2

/-- The "avoid running the skip buddy" step of `pick_next_entity`: when the
ideal pick is the skip buddy, substitute the runner-up `second` unless that
would be too unfair. -/
def pick_skip (f : Features) (st : PickState) (left : Ent) : Ent :=
  if st.skip = some left then
    match pick_second st left with
    | some s2 =>
      if f.strict_skip_buddy || decide (wakeup_preempt_entity s2 left < 1) then s2
      else left
    | none => left
  else left

/-- The `last`-buddy substitution ("prefer last buddy, try to return the CPU
to a preempted task"), honored only under the fairness guard. -/
def pick_after_last (f : Features) (st : PickState) (left : Ent) : Ent :=
  match st.last with
  | some l2 => if wakeup_preempt_entity l2 left < 1 then l2 else pick_skip f st left
  | none => pick_skip f st left

/-- The sequential buddy substitutions of `pick_next_entity`: skip, then
`last`, then `next` ("someone really wants this to run"); the `next` check
comes last, so an honored `next` buddy overrides everything. -/
def pick_with_buddies (f : Features) (st : PickState) (left : Ent) : Ent :=
  match st.next with
  | some n2 =>
    if wakeup_preempt_entity n2 left < 1 then n2 else pick_after_last f st left
  | none => pick_after_last f st left

/-- `pick_next_entity(cfs_rq, curr)` (buddy substitution with the fairness
guard). `none` only when the queue slice is completely empty, a case the
kernel never invokes. -/
def pick_next_entity (f : Features) (st : PickState) : Option Ent :=
  match pick_left st with
  | none => none
  | some left => some (pick_with_buddies f st left)

/-! ### Timeline insertion (`__enqueue_entity`, lines 511-545)

Modelled from the spec: the red-black-tree primitives (`rb_link_node`,
`rb_insert_color`, `rb_next`) live in the generic `lib/rbtree` code, which
is not under `src/`; per the spec the timeline is "a self-balancing tree
keyed by (virtual_runtime, insertion-tiebreak)" whose rebalancing preserves
in-order key order, so the tree is modelled by its in-order sequence. The
branch decision is taken verbatim from `__enqueue_entity`: descend left when
`entity_before(se, entry)`, otherwise right (so equal keys stay together,
with the new node to the right). -/

/-- In-order effect of the `__enqueue_entity` descent: `se` is placed after
every entry it is not `entity_before`. -/
def timeline_insert (se : Ent) : List Ent → List Ent
  | [] => [se]
  | e :: tl =>
    if entity_before se e then se :: e :: tl
    else e :: timeline_insert se tl

/-! ### Load-tracker decay (`decay_load` / `__compute_runnable_contrib`,
lines 2392-2446) -/

/-- `LOAD_AVG_PERIOD`: half-life in 1024 µs periods. -/
def LOAD_AVG_PERIOD : Nat := 32

/-- `LOAD_AVG_MAX`: maximum possible decayed sum (geometric series limit). -/
def LOAD_AVG_MAX : Nat := 47742

/-- `LOAD_AVG_MAX_N`. -/
def LOAD_AVG_MAX_N : Nat := 345

/-- `runnable_avg_yN_inv[]`: precomputed `y^n` inverse multipliers,
`0 ≤ n < 32`. -/
def runnable_avg_yN_inv : List Nat :=
  [0xffffffff, 0xfa83b2da, 0xf5257d14, 0xefe4b99a, 0xeac0c6e6, 0xe5b906e6,
   0xe0ccdeeb, 0xdbfbb796, 0xd744fcc9, 0xd2a81d91, 0xce248c14, 0xc9b9bd85,
   0xc5672a10, 0xc12c4cc9, 0xbd08a39e, 0xb8fbaf46, 0xb504f333, 0xb123f581,
   0xad583ee9, 0xa9a15ab4, 0xa5fed6a9, 0xa2704302, 0x9ef5325f, 0x9b8d39b9,
   0x9837f050, 0x94f4efa8, 0x91c3d373, 0x8ea4398a, 0x8b95c1e3, 0x88980e80,
   0x85aac367, 0x82cd8698]

/-- `runnable_avg_yN_sum[]`: precomputed `\Sum 1024*y^k` for `1 ≤ k ≤ n`,
`0 ≤ n ≤ 32`. -/
def runnable_avg_yN_sum : List Nat :=
  [0, 1002, 1982, 2941, 3880, 4798, 5697, 6576, 7437, 8279, 9103,
   9909, 10698, 11470, 12226, 12966, 13690, 14398, 15091, 15769, 16433, 17082,
   17718, 18340, 18949, 19545, 20128, 20698, 21256, 21802, 22336, 22859, 23371]

/-- `decay_load(val, n)`: `val * y^n` with `y^32 = 1/2`, via shift for whole
half-lives and one table multiply for the remainder. -/
def decay_load (val n : Nat) : Nat :=
  if n = 0 then val
  else if LOAD_AVG_PERIOD * 63 < n then 0
  else
    let val := if LOAD_AVG_PERIOD ≤ n then val >>> (n / LOAD_AVG_PERIOD) else val
    let local_n := if LOAD_AVG_PERIOD ≤ n then n % LOAD_AVG_PERIOD else n
    mul_u64_u32_shr val (runnable_avg_yN_inv.getD local_n 0) 32

/-- `__compute_runnable_contrib(n)`: `\Sum 1024*y^k` for `1 ≤ k ≤ n`, folded
through the partial-sum table. The `do`-loop is written as recursion on the
number of whole periods. -/
def runnable_contrib_loop : Nat → Nat → Nat × Nat
  | contrib, n =>
    if h : LOAD_AVG_PERIOD < n then
      runnable_contrib_loop
        (contrib / 2 + runnable_avg_yN_sum.getD LOAD_AVG_PERIOD 0)
        (n - LOAD_AVG_PERIOD)
    else (contrib, n)
  termination_by contrib n => n
  decreasing_by simp only [LOAD_AVG_PERIOD] at *; omega

def compute_runnable_contrib (n : Nat) : Nat :=
  if n ≤ LOAD_AVG_PERIOD then runnable_avg_yN_sum.getD n 0
  else if LOAD_AVG_MAX_N ≤ n then LOAD_AVG_MAX
  else
    let p := runnable_contrib_loop 0 n
    decay_load p.1 p.2 + runnable_avg_yN_sum.getD p.2 0

/-! ### Bandwidth control (`default_cfs_period`, `sched_cfs_bandwidth_slice`,
`__refill_cfs_bandwidth_runtime`, `assign_cfs_rq_runtime`,
lines 5568-5659) -/

/-- `RUNTIME_INF = (u64)~0ULL`. -/
def RUNTIME_INF : Nat := 18446744073709551615

/-- `default_cfs_period()`: 0.1 s in nanoseconds. -/
def default_cfs_period : Nat := 100000000

/-- default `sysctl_sched_cfs_bandwidth_slice` (line 123): 5000 µs. -/
def sysctl_sched_cfs_bandwidth_slice : Nat := 5000

/-- `sched_cfs_bandwidth_slice()` in nanoseconds. -/
def sched_cfs_bandwidth_slice : Nat := sysctl_sched_cfs_bandwidth_slice * 1000

/-- The group's global bandwidth pool (`struct cfs_bandwidth`). `period` is
`ktime_to_ns(cfs_b->period)`. -/
structure CfsBandwidth where
  quota : Nat
  runtime : Nat
  runtime_expires : Nat
  period : Nat
  timer_active : Bool
  idle : Bool
  deriving DecidableEq, Repr

/-- The per-CPU queue's local runtime state. -/
structure CfsRqRt where
  runtime_remaining : Int
  runtime_expires : Nat
  deriving DecidableEq, Repr

/-- `__refill_cfs_bandwidth_runtime(cfs_b)` at clock `now`. -/
def refill_cfs_bandwidth_runtime (now : Nat) (b : CfsBandwidth) : CfsBandwidth :=
  if b.quota = RUNTIME_INF then b
  else { b with runtime := b.quota, runtime_expires := now + b.period }

structure AssignResult where
  granted : Bool
  bw : CfsBandwidth
  rq : CfsRqRt
  deriving DecidableEq, Repr

/-- `min_amount = sched_cfs_bandwidth_slice() - cfs_rq->runtime_remaining`
("a positive sum as runtime_remaining <= 0"), computed in `u64`. -/
def assign_min_amount (rq : CfsRqRt) : Nat :=
  u64sub sched_cfs_bandwidth_slice (u64ofInt rq.runtime_remaining)

/-- The pool after the inactive-timer refresh branch of
`assign_cfs_rq_runtime` (`__start_cfs_bandwidth` sets `timer_active`,
line 6339). -/
def assign_b1 (now : Nat) (b : CfsBandwidth) : CfsBandwidth :=
  if !b.timer_active then
    { refill_cfs_bandwidth_runtime now b with timer_active := true }
  else b

/-- The locked section of `assign_cfs_rq_runtime`: the granted `amount` and
the pool state after the draw. -/
def assign_step (now : Nat) (b : CfsBandwidth) (rq : CfsRqRt) :
    Nat × CfsBandwidth :=
  if b.quota = RUNTIME_INF then (assign_min_amount rq, b)
  else if 0 < (assign_b1 now b).runtime then
    (min (assign_b1 now b).runtime (assign_min_amount rq),
     { assign_b1 now b with
        runtime :=
          (assign_b1 now b).runtime -
            min (assign_b1 now b).runtime (assign_min_amount rq),
        idle := false })
  else (0, assign_b1 now b)

/-- `assign_cfs_rq_runtime(cfs_rq)` at clock `now`: one draw from the global
pool; returns whether the local balance became positive, together with the
new pool and queue state (the local expiry is pulled forward when the pool's
is ahead). -/
def assign_cfs_rq_runtime (now : Nat) (b : CfsBandwidth) (rq : CfsRqRt) :
    AssignResult :=
  ⟨decide (0 < rq.runtime_remaining + ((assign_step now b rq).1 : Int)),
   (assign_step now b rq).2,
   ⟨rq.runtime_remaining + ((assign_step now b rq).1 : Int),
    if 0 < s64 (u64sub (assign_step now b rq).2.runtime_expires
        rq.runtime_expires) then
      (assign_step now b rq).2.runtime_expires
    else rq.runtime_expires⟩⟩

/-! ### HMP small-task CPU selection (`best_small_task_cpu`, lines 3092-3216,
and the small-task gate of `select_best_cpu`, lines 3366-3420)

Per-CPU quantities that the C code derives from the run-queues and the task
(`cpu_load_sync(i, 0)`, `scale_load_to_cpu(task_load(p), i)`,
`power_cost(tload, i)`, `sched_cpu_high_irqload(i)`, `idle_cpu(i)`,
`rq->cstate`, the mostly-idle thresholds and the frequency-domain mask) are
carried as fields of the CPU descriptor; the wakeup is non-sync
(`sync = 0`) as in the claim, so the sync discounts vanish. -/

/-- `INT_MAX`. -/
def INT_MAX : Nat := 2147483647

/-- One candidate CPU, with the per-CPU inputs of `best_small_task_cpu`. -/
structure HmpCpu where
  id : Nat
  /-- `cpu_max_possible_capacity(i) == max_possible_capacity` -/
  is_max_capacity : Bool
  /-- ids of `rq->freq_domain_cpumask` -/
  freq_domain : List Nat
  /-- `sched_cpu_high_irqload(i)` -/
  high_irqload : Bool
  /-- `idle_cpu(i)` -/
  idle : Bool
  /-- `rq->cstate` -/
  cstate : Nat
  /-- `cpu_load_sync(i, 0)` -/
  load : Nat
  /-- `rq->nr_running` -/
  nr_running : Nat
  /-- `rq->mostly_idle_load` -/
  mostly_idle_load : Nat
  /-- `rq->mostly_idle_nr_run` -/
  mostly_idle_nr_run : Nat
  /-- `scale_load_to_cpu(task_load(p), i)` -/
  tload : Nat
  /-- `power_cost(tload, i)` -/
  pcost : Nat
  deriving DecidableEq, Repr

/-- Globals read by `best_small_task_cpu`. -/
structure HmpGlobals where
  /-- `!cpumask_equal(&mpc_mask, cpu_possible_mask)` -/
  hmp_capable : Bool
  /-- `sysctl_sched_restrict_tasks_spread` -/
  restrict_tasks_spread : Bool
  /-- `sched_spill_load` -/
  spill_load : Nat
  /-- `sysctl_sched_spill_nr_run` -/
  spill_nr_run : Nat
  /-- `task_cpu(p)` -/
  task_cpu : Nat
  deriving DecidableEq, Repr

/-- `mostly_idle_cpu_sync(i, load, 0)` (lines 2823-2838, non-sync). -/
def mostly_idle_cpu_sync (c : HmpCpu) : Bool :=
  c.load ≤ c.mostly_idle_load && c.nr_running ≤ c.mostly_idle_nr_run

/-- `spill_threshold_crossed(task_load, cpu_load, rq)` (lines 2801-2811). -/
def spill_threshold_crossed (g : HmpGlobals) (c : HmpCpu) : Bool :=
  g.spill_load < c.tload + c.load || g.spill_nr_run < c.nr_running + 1

/-- Accumulators of the first scan loop of `best_small_task_cpu`. -/
structure P1Acc where
  best_busy : Option Nat
  min_load : Nat
  min_cstate_cpu : Option Nat
  min_cstate : Nat
  fb_search : List Nat
  deriving DecidableEq, Repr

/-- The first `do { ... } while` scan of `best_small_task_cpu`: the worklist
is ordered as the `search_cpu` mask is consumed (`task_cpu` first, then
ascending id). Each step removes at least the head, so fuel equal to the
list length makes the recursion total. -/
def bstcScanAux (g : HmpGlobals) : Nat → List HmpCpu → P1Acc →
    Option Nat × P1Acc
  | 0, _, acc => (none, acc)
  | _ + 1, [], acc => (none, acc)
  | fuel + 1, c :: rest, acc =>
    if c.is_max_capacity && g.hmp_capable then
      let inDom := (c :: rest).filter (fun x => c.freq_domain.contains x.id)
      bstcScanAux g fuel (rest.filter (fun x => !c.freq_domain.contains x.id))
        { acc with fb_search := inDom.map (·.id) }
    else if c.high_irqload then bstcScanAux g fuel rest acc
    else if c.idle && c.cstate ≠ 0 then
      bstcScanAux g fuel rest
        (if c.cstate < acc.min_cstate then
          { acc with min_cstate_cpu := some c.id, min_cstate := c.cstate }
         else acc)
    else if g.restrict_tasks_spread then
      bstcScanAux g fuel rest
        (if !spill_threshold_crossed g c && c.load < acc.min_load then
          { acc with min_load := c.load, best_busy := some c.id }
         else acc)
    else if mostly_idle_cpu_sync c then (some c.id, acc)
    else bstcScanAux g fuel rest acc

def bstcScan (g : HmpGlobals) (l : List HmpCpu) (acc : P1Acc) :
    Option Nat × P1Acc :=
  bstcScanAux g l.length l acc

/-- The second loop (spread permitted): least-loaded CPU whose spill
threshold is not crossed, ties broken towards `task_cpu`. The pair carries
(`best_busy_cpu`, `min_load`), continuing the first loop's `min_load`. -/
def bstcBusyLoop (g : HmpGlobals) : List HmpCpu → Option Nat × Nat →
    Option Nat × Nat
  | [], acc => acc
  | c :: rest, acc =>
    if c.high_irqload then bstcBusyLoop g rest acc
    else if !spill_threshold_crossed g c &&
        (c.load < acc.2 || (c.id = g.task_cpu && c.load = acc.2)) then
      bstcBusyLoop g rest (some c.id, c.load)
    else bstcBusyLoop g rest acc

/-- The fallback loop over `fb_search_cpu`: lowest `power_cost`, ties broken
towards `task_cpu`. The pair carries (`fallback_cpu`, `min_cost`). -/
def bstcFallbackLoop (g : HmpGlobals) : List HmpCpu → Option Nat × Nat →
    Option Nat × Nat
  | [], acc => acc
  | c :: rest, acc =>
    if c.pcost < acc.2 || (c.id = g.task_cpu && c.pcost = acc.2) then
      bstcFallbackLoop g rest (some c.id, c.pcost)
    else bstcFallbackLoop g rest acc

/-- The scan order of the first loop: `i` starts at `task_cpu(p)` (falling
back to the first allowed CPU when `task_cpu` is not allowed), and each
further iteration takes `cpumask_first`, i.e. the smallest remaining id.
`cpus` is the allowed-and-active CPU list in ascending id order. -/
def scanOrder (g : HmpGlobals) (cpus : List HmpCpu) : List HmpCpu :=
  match cpus.find? (fun c => c.id = g.task_cpu) with
  | some c => c :: cpus.filter (fun x => x.id ≠ g.task_cpu)
  | none => cpus

/-- `best_small_task_cpu(p, 0)`: `cpus` is the list of allowed active CPUs
in ascending id order; `none` models the `-1` result. -/
def best_small_task_cpu (g : HmpGlobals) (cpus : List HmpCpu) : Option Nat :=
  match bstcScan g (scanOrder g cpus) ⟨none, RUNTIME_INF, none, INT_MAX, []⟩ with
  | (some i, _) => some i
  | (none, acc) =>
    match acc.best_busy with
    | some b => some b
    | none =>
      match acc.min_cstate_cpu with
      | some b => some b
      | none =>
        let afterBusy : Option Nat :=
          if !g.restrict_tasks_spread then
            (bstcBusyLoop g
              (cpus.filter (fun c => !acc.fb_search.contains c.id))
              (none, acc.min_load)).1
          else none
        match afterBusy with
        | some b => some b
        | none =>
          (bstcFallbackLoop g
            (cpus.filter (fun c => acc.fb_search.contains c.id))
            (none, INT_MAX)).1

/-- The small-task gate of `select_best_cpu` (lines 3366-3420): colocation
with a preferred cluster above minimum capacity clears `small_task`;
`wake_to_idle` clears both `small_task` and `sync`; a small, non-boosted,
non-sync wakeup is routed to `best_small_task_cpu`. The general (non-small)
path of `select_best_cpu` is outside the modelled fragment and yields
`none` here; no theorem below depends on it. -/
def select_best_cpu_small (g : HmpGlobals) (cpus : List HmpCpu)
    (small_task boost sync wake_to_idle pref_cluster : Bool) : Option Nat :=
  let small_task := if pref_cluster then false else small_task
  let small_task := if wake_to_idle then false else small_task
  let sync := if wake_to_idle then false else sync
  if small_task && !boost && !sync then best_small_task_cpu g cpus
  else none

/-! ### HMP tunable update handler (`sched_hmp_proc_update_handler`,
lines 3994-4091)

The handler validates the new value already stored by the generic
`proc_dointvec_minmax` filter and restores the old one on rejection.
`proc_dointvec_minmax` itself is generic kernel code outside `src/` and is
modelled as a plain store (its return code is a parameter); `set_hmp_defaults`
(lines 2610-2644) recomputes the absolute thresholds from the percentage
tunables and is recorded as the `recomputed` effect flag, and the
`pre/post_big_small_task_count_change` pair as `recounted`. -/

/-- The tunables dispatched on by the handler. `other_pct` stands for any
further percentage tunable routed through the same handler (spill load,
init task load, ...), which all take the final `else` branch. -/
inductive HmpField
  | min_runtime
  | grp_task_active_windows
  | grp_upmigrate_pct
  | grp_downmigrate_pct
  | upmigrate_min_nice
  | upmigrate_pct
  | downmigrate_pct
  | small_task_pct
  | other_pct
  deriving DecidableEq, Repr

/-- The sysctl values (plus the two derived values the handler itself
writes). -/
structure HmpTunables where
  min_runtime : Int
  grp_task_active_windows : Int
  grp_upmigrate_pct : Int
  grp_downmigrate_pct : Int
  upmigrate_min_nice : Int
  upmigrate_pct : Int
  downmigrate_pct : Int
  small_task_pct : Int
  other_pct : Int
  sched_min_runtime : Int
  sched_grp_task_active_period : Int
  deriving DecidableEq, Repr

def getF (st : HmpTunables) : HmpField → Int
  | .min_runtime => st.min_runtime
  | .grp_task_active_windows => st.grp_task_active_windows
  | .grp_upmigrate_pct => st.grp_upmigrate_pct
  | .grp_downmigrate_pct => st.grp_downmigrate_pct
  | .upmigrate_min_nice => st.upmigrate_min_nice
  | .upmigrate_pct => st.upmigrate_pct
  | .downmigrate_pct => st.downmigrate_pct
  | .small_task_pct => st.small_task_pct
  | .other_pct => st.other_pct

def setF (st : HmpTunables) : HmpField → Int → HmpTunables
  | .min_runtime, v => { st with min_runtime := v }
  | .grp_task_active_windows, v => { st with grp_task_active_windows := v }
  | .grp_upmigrate_pct, v => { st with grp_upmigrate_pct := v }
  | .grp_downmigrate_pct, v => { st with grp_downmigrate_pct := v }
  | .upmigrate_min_nice, v => { st with upmigrate_min_nice := v }
  | .upmigrate_pct, v => { st with upmigrate_pct := v }
  | .downmigrate_pct, v => { st with downmigrate_pct := v }
  | .small_task_pct, v => { st with small_task_pct := v }
  | .other_pct, v => { st with other_pct := v }

/-- Result of one handler invocation: final state, return value, whether
`set_hmp_defaults` ran, whether the big/small re-count ran. -/
structure ProcResult where
  st : HmpTunables
  ret : Int
  recomputed : Bool
  recounted : Bool
  deriving DecidableEq, Repr

/-- `EINVAL`. -/
def EINVAL : Int := 22

/-- `sched_hmp_proc_update_handler`. `ravg_window` is `sched_ravg_window`,
`procRet` the return value of `proc_dointvec_minmax`. -/
def sched_hmp_proc_update_handler (enable_hmp : Bool) (ravg_window : Int)
    (write : Bool) (procRet : Int) (st : HmpTunables) (f : HmpField)
    (newVal : Int) : ProcResult :=
  if !enable_hmp then ⟨st, 0, false, false⟩
  else
    let update_task_count := write &&
      (f = .upmigrate_pct || f = .small_task_pct || f = .upmigrate_min_nice)
    let old := getF st f
    let st1 := if write then setF st f newVal else st
    if procRet ≠ 0 || !write then ⟨st1, procRet, false, false⟩
    else if old = getF st1 f then ⟨st1, 0, false, false⟩
    else if f = .min_runtime then
      ⟨{ st1 with sched_min_runtime := st1.min_runtime * 1000 }, 0, false, false⟩
    else if f = .grp_task_active_windows then
      ⟨{ st1 with sched_grp_task_active_period :=
          ravg_window * st1.grp_task_active_windows }, 0, false, false⟩
    else if f = .grp_upmigrate_pct || f = .grp_downmigrate_pct then
      if st1.grp_upmigrate_pct < st1.grp_downmigrate_pct then
        ⟨setF st1 f old, -EINVAL, false, false⟩
      else ⟨st1, 0, true, false⟩
    else
      let rejected :=
        if f = .upmigrate_min_nice then newVal < -20 || 19 < newVal
        else st1.upmigrate_pct < st1.downmigrate_pct || 100 < newVal
      if rejected then ⟨setF st1 f old, -EINVAL, false, false⟩
      else ⟨st1, 0, true, update_task_count⟩

/-! ## Helper lemmas -/

theorem u64sub_self (a : Nat) : u64sub a a = 0 := by
  unfold u64sub U64
  omega

theorem s64_zero : s64 0 = 0 := by decide

theorem s64_nonneg_of_max_vruntime (old v : Nat) :
    0 ≤ s64 (u64sub (max_vruntime old v) old) := by
  unfold max_vruntime
  split
  · omega
  · rw [u64sub_self, s64_zero]

theorem entity_before_eq_vruntime {a b : Ent} (h : a.vruntime = b.vruntime) :
    entity_before a b = false := by
  unfold entity_before
  rw [h, u64sub_self, s64_zero]
  decide

/-! ## C1 — period stretching and the equal-weight ideal slice -/

/-- C1 counterexample: with 4 equal-weight tasks the computed slice is
1 499 998 ns, not exactly `6 ms / 4 = 1 500 000 ns`, and with 10 tasks it is
749 999 ns, not exactly the 750 000 ns minimum granularity: the fixed-point
inverse-weight multiplication loses up to 2 ns, so the claimed equalities
fail as stated. -/
theorem c1_slice_not_exact :
    equalWeightSlice 4 = 1499998 ∧ equalWeightSlice 4 ≠ 6000000 / 4 ∧
    equalWeightSlice 10 = 749999 ∧ equalWeightSlice 10 ≠ 750000 := by
  decide

/-- C1 (amended): the period law is exact — the period is the 6 ms target
latency for at most `sched_nr_latency = 8` runnable tasks and
`nr * 0.75 ms` beyond — while the per-task slice equals the period divided
by the task count only up to fixed-point rounding: for `1 ≤ k ≤ 8`
equal-weight tasks the slice is within 2 ns below `6 ms / k`
(1 499 998 ns for 4 tasks), and for 10 tasks it is 749 999 ns, within 1 ns
below the minimum granularity. -/
theorem c1_period_and_slice :
    (∀ nr, nr ≤ 8 → sched_period nr = 6000000) ∧
    (∀ nr, 8 < nr → sched_period nr = nr * 750000) ∧
    (∀ k, 1 ≤ k → k ≤ 8 →
      6000000 / k - 2 ≤ equalWeightSlice k ∧ equalWeightSlice k ≤ 6000000 / k) ∧
    equalWeightSlice 4 = 1499998 ∧ equalWeightSlice 10 = 749999 := by
  refine ⟨?_, ?_, ?_, by decide, by decide⟩
  · intro nr h
    unfold sched_period
    rw [if_neg (by unfold sched_nr_latency; omega)]
    rfl
  · intro nr h
    unfold sched_period
    rw [if_pos (by unfold sched_nr_latency; omega)]
    rfl
  · intro k h1 h8
    interval_cases k <;> exact ⟨by decide, by decide⟩

/-- C1 witness: the amended theorem applied at the claim's two scenarios. -/
theorem c1_period_and_slice_inst :
    sched_period 4 = 6000000 ∧ sched_period 10 = 10 * 750000 ∧
    6000000 / 4 - 2 ≤ equalWeightSlice 4 ∧ equalWeightSlice 4 ≤ 6000000 / 4 :=
  ⟨c1_period_and_slice.1 4 (by decide), c1_period_and_slice.2.1 10 (by decide),
   (c1_period_and_slice.2.2.1 4 (by decide) (by decide)).1,
   (c1_period_and_slice.2.2.1 4 (by decide) (by decide)).2⟩

/-! ## C2 — tick-time preemption conditions -/

/-- C2 counterexample: a light entity (weight 15 next to a weight-1024
entity) has an ideal slice of 86 621 ns < the 750 000 ns minimum
granularity, so an elapsed slice of 100 000 ns — below the minimum
granularity — already triggers preemption through the overrun branch,
refuting "no preemption ever occurs for any overrun whose elapsed slice is
below the minimum granularity". -/
theorem c2_short_slice_preempts :
    check_preempt_tick ⟨2, 1039, 0⟩ ⟨15, 0, 100000, 0, true⟩ 0 = true ∧
    u64sub 100000 0 < sysctl_sched_min_granularity ∧
    sched_slice ⟨2, 1039, 0⟩ ⟨15, 0, 100000, 0, true⟩ = 86621 := by
  decide

/-- C2 (amended): at tick time the running entity is marked for preemption
iff its elapsed slice exceeds its ideal runtime from `sched_slice`, or the
elapsed slice is at least the minimum granularity and the signed gap from
the leftmost queued entity's vruntime is positive and exceeds the ideal
runtime. Consequently, below the minimum granularity only the plain overrun
condition can preempt (possible when the ideal slice itself is shorter than
the granularity); the vruntime-gap path never fires there. -/
theorem c2_check_preempt_tick_iff :
    ∀ (cfs : Cfs) (curr : SE) (leftVr : Nat),
      (check_preempt_tick cfs curr leftVr = true ↔
        (sched_slice cfs curr <
            u64sub curr.sum_exec_runtime curr.prev_sum_exec_runtime ∨
         (sysctl_sched_min_granularity ≤
            u64sub curr.sum_exec_runtime curr.prev_sum_exec_runtime ∧
          0 ≤ s64 (u64sub curr.vruntime leftVr) ∧
          (sched_slice cfs curr : Int) < s64 (u64sub curr.vruntime leftVr)))) ∧
      (u64sub curr.sum_exec_runtime curr.prev_sum_exec_runtime <
          sysctl_sched_min_granularity →
        (check_preempt_tick cfs curr leftVr = true ↔
          sched_slice cfs curr <
            u64sub curr.sum_exec_runtime curr.prev_sum_exec_runtime)) := by
  intro cfs curr leftVr
  unfold check_preempt_tick
  constructor
  · split_ifs with h1 h2 h3 <;> simp_all
  · intro hsmall
    split_ifs with h1 h2 h3 <;> simp_all

/-- C2 witness: the characterization applied at the counterexample state. -/
theorem c2_check_preempt_tick_iff_inst :
    check_preempt_tick ⟨2, 1039, 0⟩ ⟨15, 0, 100000, 0, true⟩ 0 = true ↔
      sched_slice ⟨2, 1039, 0⟩ ⟨15, 0, 100000, 0, true⟩ < u64sub 100000 0 :=
  (c2_check_preempt_tick_iff ⟨2, 1039, 0⟩ ⟨15, 0, 100000, 0, true⟩ 0).2
    (by decide)

/-! ## C3 — the `min_vruntime` watermark never decreases -/

/-- C3: with both a running entity and a leftmost queued entity present the
new watermark is `max(old, min(curr, leftmost))` (in the wraparound
ordering), and for every combination of present/absent entities the update
never moves the watermark backwards: the signed distance from the old value
is non-negative. -/
theorem c3_update_min_vruntime_monotone :
    (∀ old c l : Nat, update_min_vruntime old (some c) (some l) =
        max_vruntime old (min_vruntime c l)) ∧
    (∀ (old : Nat) (curr leftmost : Option Nat),
        0 ≤ s64 (u64sub (update_min_vruntime old curr leftmost) old)) := by
  constructor
  · intro old c l
    rfl
  · intro old curr leftmost
    unfold update_min_vruntime
    cases curr <;> cases leftmost <;>
      exact s64_nonneg_of_max_vruntime _ _

/-! ## C4 — `place_entity` sleep bonus and initial debit -/

/-- C4: on a wakeup (non-initial) placement the entity's new vruntime is the
maximum (wraparound order) of its prior vruntime and
`min_vruntime - sleep bonus`, where the bonus is one scheduling latency,
halved under `GENTLE_FAIR_SLEEPERS`; the entity is never placed before that
bonus target unless it keeps its own (later) vruntime, so the catch-up
credit is bounded by the bonus. For a brand-new entity (with `START_DEBIT`)
no sleep bonus applies and the target is instead `min_vruntime + vslice`. -/
theorem c4_place_entity :
    ∀ (f : Features) (cfs : Cfs) (se : SE),
      (place_entity f cfs se false =
        max_vruntime se.vruntime
          (u64sub cfs.minVruntime
            (if f.gentle_fair_sleepers then 3000000 else 6000000))) ∧
      (0 < s64 (u64sub
            (u64sub cfs.minVruntime
              (if f.gentle_fair_sleepers then 3000000 else 6000000))
            se.vruntime) →
        place_entity f cfs se false =
          u64sub cfs.minVruntime
            (if f.gentle_fair_sleepers then 3000000 else 6000000)) ∧
      (f.start_debit = true →
        place_entity f cfs se true =
          max_vruntime se.vruntime
            (u64add cfs.minVruntime (sched_vslice cfs se))) := by
  intro f cfs se
  have hthresh :
      (if f.gentle_fair_sleepers then sysctl_sched_latency >>> 1
       else sysctl_sched_latency) =
      (if f.gentle_fair_sleepers then 3000000 else 6000000) := by
    cases f.gentle_fair_sleepers <;> decide
  have hwake : place_entity f cfs se false =
      max_vruntime se.vruntime
        (u64sub cfs.minVruntime
          (if f.gentle_fair_sleepers then 3000000 else 6000000)) := by
    unfold place_entity
    rw [← hthresh]
    simp
  refine ⟨hwake, ?_, ?_⟩
  · intro hpos
    rw [hwake]
    unfold max_vruntime
    rw [if_pos hpos]
  · intro hsd
    unfold place_entity
    simp [hsd]

/-- C4 witness: a gentle-sleeper wakeup of a long-sleeping entity (prior
vruntime 0, watermark 10 ms) is placed exactly at the bonus target
`10 ms - 3 ms`, and a brand-new entity is debited one vslice. -/
theorem c4_place_entity_inst :
    place_entity ⟨true, true, false⟩ ⟨1, 1024, 10000000⟩ ⟨1024, 0, 0, 0, false⟩
        false = u64sub 10000000 3000000 ∧
    place_entity ⟨true, true, false⟩ ⟨1, 1024, 10000000⟩ ⟨1024, 0, 0, 0, false⟩
        true =
      max_vruntime 0
        (u64add 10000000
          (sched_vslice ⟨1, 1024, 10000000⟩ ⟨1024, 0, 0, 0, false⟩)) :=
  ⟨by
    have h := (c4_place_entity ⟨true, true, false⟩ ⟨1, 1024, 10000000⟩
      ⟨1024, 0, 0, 0, false⟩).2.1 (by decide)
    simpa using h,
   by
    have h := (c4_place_entity ⟨true, true, false⟩ ⟨1, 1024, 10000000⟩
      ⟨1024, 0, 0, 0, false⟩).2.2 rfl
    simpa using h⟩

/-! ## C5 — `pick_next_entity` buddy substitution and fairness guard -/

/-- C5: `pick_next_entity` starts from the leftmost entity (or the running
entity when it is before the leftmost, which is `pick_left`); with no
buddies set it returns exactly that candidate. An honored `next` buddy
(vruntime not past the candidate's by more than one weight-scaled wakeup
granularity, i.e. `wakeup_preempt_entity < 1`) is returned in preference to
everything else; an honored `last` buddy is returned when no `next` buddy
is honored; and (without the `STRICT_SKIP_BUDDY` feature) whatever entity
is returned is either the leftmost candidate itself or passes the same
fairness guard against it. -/
theorem c5_pick_next_entity :
    ∀ (f : Features) (st : PickState) (left : Ent),
      pick_left st = some left →
      (st.skip = none → st.last = none → st.next = none →
        pick_next_entity f st = some left) ∧
      (∀ n, st.next = some n → wakeup_preempt_entity n left < 1 →
        pick_next_entity f st = some n) ∧
      (∀ l2, st.last = some l2 → wakeup_preempt_entity l2 left < 1 →
        (∀ n, st.next = some n → 1 ≤ wakeup_preempt_entity n left) →
        pick_next_entity f st = some l2) ∧
      (f.strict_skip_buddy = false →
        ∀ r, pick_next_entity f st = some r →
          r = left ∨ wakeup_preempt_entity r left < 1) := by
  intro f st left hleft
  have hguard_skip : f.strict_skip_buddy = false →
      pick_skip f st left = left ∨
        wakeup_preempt_entity (pick_skip f st left) left < 1 := by
    intro hstrict
    unfold pick_skip
    split_ifs with hs
    · rcases hsec : pick_second st left with _ | s2
      · left; rfl
      · rw [hstrict]
        simp only [Bool.false_or, decide_eq_true_eq]
        split_ifs with hg
        · right; exact hg
        · left; rfl
    · left; rfl
  refine ⟨?_, ?_, ?_, ?_⟩
  · intro hskip hlast hnext
    simp only [pick_next_entity, pick_with_buddies, pick_after_last, pick_skip,
      hleft, hskip, hlast, hnext]
    simp
  · intro n hnext hguard
    simp only [pick_next_entity, pick_with_buddies, hleft, hnext]
    rw [if_pos hguard]
  · intro l2 hlast hguard hnext
    rcases hn : st.next with _ | n
    · simp only [pick_next_entity, pick_with_buddies, pick_after_last,
        hleft, hn, hlast]
      rw [if_pos hguard]
    · have h1 := hnext n hn
      simp only [pick_next_entity, pick_with_buddies, pick_after_last,
        hleft, hn, hlast]
      rw [if_neg (by omega), if_pos hguard]
  · intro hstrict r hr
    simp only [pick_next_entity, hleft, Option.some.injEq] at hr
    subst hr
    rcases hn : st.next with _ | n
    · rcases hl : st.last with _ | l2
      · simpa only [pick_with_buddies, pick_after_last, hn, hl] using
          hguard_skip hstrict
      · simp only [pick_with_buddies, pick_after_last, hn, hl]
        split_ifs with hg
        · right; exact hg
        · exact hguard_skip hstrict
    · rcases hl : st.last with _ | l2
      · simp only [pick_with_buddies, pick_after_last, hn, hl]
        split_ifs with hg
        · right; exact hg
        · exact hguard_skip hstrict
      · simp only [pick_with_buddies, pick_after_last, hn, hl]
        split_ifs with hg hg2
        · right; exact hg
        · right; exact hg2
        · exact hguard_skip hstrict

/-- C5 witness: with only a `last` buddy set, 500 ns past the leftmost
entity (within the 1 ms wakeup granularity), the buddy is picked. -/
theorem c5_pick_next_entity_inst :
    pick_next_entity ⟨true, true, false⟩
        ⟨none, some ⟨0, 1024, 1000⟩, none, some ⟨1, 1024, 1500⟩, none, none⟩ =
      some ⟨1, 1024, 1500⟩ :=
  (c5_pick_next_entity ⟨true, true, false⟩
      ⟨none, some ⟨0, 1024, 1000⟩, none, some ⟨1, 1024, 1500⟩, none, none⟩
      ⟨0, 1024, 1000⟩ rfl).2.2.1 ⟨1, 1024, 1500⟩ rfl (by decide)
    (fun n hn => nomatch hn)

/-! ## C6 — bandwidth draw size and success condition -/

theorem min_amount_eq (rq : CfsRqRt) (h1 : rq.runtime_remaining ≤ 0)
    (h2 : -(2 ^ 62) < rq.runtime_remaining) :
    assign_min_amount rq =
      ((sched_cfs_bandwidth_slice : Int) - rq.runtime_remaining).toNat := by
  unfold assign_min_amount u64sub u64ofInt sched_cfs_bandwidth_slice
    sysctl_sched_cfs_bandwidth_slice U64
  omega

/-- C6 counterexample: with the local balance 10 ms in deficit and 20 ms in
the global pool, a single `assign_cfs_rq_runtime` draw removes 15 ms — three
times `sched_cfs_bandwidth_slice()` = 5 ms — from the pool, refuting
"never decreases the global pool by more than one slice in one call". -/
theorem c6_draw_exceeds_slice :
    (assign_cfs_rq_runtime 0 ⟨1000000000, 20000000, 0, 100000000, true, true⟩
        ⟨-10000000, 0⟩).bw.runtime = 5000000 ∧
    20000000 -
      (assign_cfs_rq_runtime 0 ⟨1000000000, 20000000, 0, 100000000, true, true⟩
        ⟨-10000000, 0⟩).bw.runtime = 15000000 ∧
    sched_cfs_bandwidth_slice = 5000000 ∧ 5000000 < 15000000 := by
  decide

/-- C6 (amended): the default period is 100 ms and the default slice 5 ms;
with an active timer and a finite quota, a draw for a queue whose local
balance is in deficit removes `min(pool, slice - balance)` from the pool —
one slice plus the accumulated deficit, so possibly more than one slice —
leaves the local balance at most one slice, and succeeds exactly when the
local balance becomes positive. -/
theorem c6_assign_cfs_rq_runtime :
    default_cfs_period = 100000000 ∧
    sched_cfs_bandwidth_slice = 5000000 ∧
    (∀ (now : Nat) (b : CfsBandwidth) (rq : CfsRqRt),
      b.quota ≠ RUNTIME_INF → b.timer_active = true →
      rq.runtime_remaining ≤ 0 → -(2 ^ 62) < rq.runtime_remaining →
      (assign_cfs_rq_runtime now b rq).bw.runtime =
        b.runtime -
          min b.runtime
            ((sched_cfs_bandwidth_slice : Int) - rq.runtime_remaining).toNat ∧
      (assign_cfs_rq_runtime now b rq).rq.runtime_remaining ≤
        (sched_cfs_bandwidth_slice : Int) ∧
      ((assign_cfs_rq_runtime now b rq).granted = true ↔
        0 < (assign_cfs_rq_runtime now b rq).rq.runtime_remaining)) := by
  refine ⟨rfl, rfl, ?_⟩
  intro now b rq hquota htimer hdef hbound
  have hamt := min_amount_eq rq hdef hbound
  have hb1 : assign_b1 now b = b := by
    unfold assign_b1
    rw [htimer]
    rfl
  have hstep : assign_step now b rq =
      if 0 < b.runtime then
        (min b.runtime (assign_min_amount rq),
         { b with
            runtime := b.runtime - min b.runtime (assign_min_amount rq),
            idle := false })
      else (0, b) := by
    unfold assign_step
    rw [if_neg hquota, hb1]
  have hsl : sched_cfs_bandwidth_slice = 5000000 := rfl
  unfold assign_cfs_rq_runtime
  rw [hstep, hamt]
  simp only [hsl] at *
  by_cases hpool : 0 < b.runtime
  · rw [if_pos hpool]
    refine ⟨rfl, ?_, by simp only [decide_eq_true_eq]⟩
    simp only
    omega
  · rw [if_neg hpool]
    refine ⟨?_, ?_, by simp only [decide_eq_true_eq]⟩
    · simp only
      omega
    · simp only
      omega

/-- C6 witness: a queue at exactly zero balance drawing from a 4 ms pool
receives the whole remaining 4 ms (less than one slice) and succeeds. -/
theorem c6_assign_cfs_rq_runtime_inst :
    (assign_cfs_rq_runtime 0 ⟨1000000, 4000000, 7, 100000000, true, false⟩
        ⟨0, 3⟩).bw.runtime =
      4000000 - min 4000000 ((sched_cfs_bandwidth_slice : Int) - 0).toNat ∧
    (assign_cfs_rq_runtime 0 ⟨1000000, 4000000, 7, 100000000, true, false⟩
        ⟨0, 3⟩).rq.runtime_remaining ≤ (sched_cfs_bandwidth_slice : Int) ∧
    ((assign_cfs_rq_runtime 0 ⟨1000000, 4000000, 7, 100000000, true, false⟩
        ⟨0, 3⟩).granted = true ↔
      0 < (assign_cfs_rq_runtime 0
        ⟨1000000, 4000000, 7, 100000000, true, false⟩ ⟨0, 3⟩).rq.runtime_remaining) :=
  c6_assign_cfs_rq_runtime.2.2 0 ⟨1000000, 4000000, 7, 100000000, true, false⟩
    ⟨0, 3⟩ (by decide) rfl (by decide) (by decide)

/-! ## C9 — decay half-life law -/

theorem decay_load_32_eq (v : Nat) (hv : v < U64) :
    decay_load v 32 = v / 2 * 4294967295 / 4294967296 := by
  have e1 : decay_load v 32 = ((((v >>> 1) % U64) * 4294967295) >>> 32) % U64 :=
    rfl
  rw [e1, Nat.shiftRight_one,
    Nat.mod_eq_of_lt (show v / 2 < U64 by unfold U64 at *; omega),
    Nat.shiftRight_eq_div_pow]
  norm_num
  exact Nat.mod_eq_of_lt (by unfold U64 at *; omega)

/-- C9: the decay function satisfies the half-life law — decay across 0
periods is the identity, decay across more than `32 * 63` periods is 0, and
decay across exactly 32 periods halves the value up to fixed-point rounding
(at most `v / 2^33 + 1` below the exact half, never above it); in particular
the steady-state fully-runnable sum `LOAD_AVG_MAX = 47742` decays over one
half-life to 23870, within 1 of half its value. -/
theorem c9_decay_load_half_life :
    (∀ v, decay_load v 0 = v) ∧
    (∀ v n, 32 * 63 < n → decay_load v n = 0) ∧
    (∀ v, v < U64 →
      decay_load v 32 ≤ v / 2 ∧ v / 2 - v / 2 ^ 33 - 1 ≤ decay_load v 32) ∧
    decay_load LOAD_AVG_MAX 32 = 23870 ∧
    LOAD_AVG_MAX / 2 - decay_load LOAD_AVG_MAX 32 ≤ 1 := by
  refine ⟨?_, ?_, ?_, by decide, by decide⟩
  · intro v
    unfold decay_load
    rw [if_pos rfl]
  · intro v n h
    unfold decay_load LOAD_AVG_PERIOD
    rw [if_neg (by omega), if_pos (by omega)]
  · intro v hv
    rw [decay_load_32_eq v hv]
    have h33 : v / 2 ^ 33 = v / 2 / 4294967296 := by
      rw [Nat.div_div_eq_div_mul]
      norm_num
    rw [h33]
    constructor <;> omega

/-- C9 witness: the half-life bounds applied at the steady-state sum and the
zero law applied past the horizon. -/
theorem c9_decay_load_half_life_inst :
    decay_load 47742 32 ≤ 47742 / 2 ∧
    47742 / 2 - 47742 / 2 ^ 33 - 1 ≤ decay_load 47742 32 ∧
    decay_load 47742 2017 = 0 :=
  ⟨(c9_decay_load_half_life.2.2.1 47742 (by decide)).1,
   (c9_decay_load_half_life.2.2.1 47742 (by decide)).2,
   c9_decay_load_half_life.2.1 47742 2017 (by decide)⟩

/-! ## C10 — wraparound-safe ordering and equal-key insertion -/

/-- C10: the signed-difference comparisons are wraparound-safe — for any two
unbounded counters whose true distance is below `2^63`, `entity_before`,
`max_vruntime` and `min_vruntime` computed on the truncated 64-bit values
realize the true order, even after the `u64` counters have overflowed — and
an entity whose key equals every queued entity's key is inserted to the
right of all of them (insertion order preserved among equals). -/
theorem c10_wraparound_safe_order :
    (∀ a b : Nat, (a : Int) - b < 2 ^ 63 → (b : Int) - a < 2 ^ 63 →
      ((entity_before ⟨0, 0, a % U64⟩ ⟨1, 0, b % U64⟩ = true) ↔ a < b) ∧
      max_vruntime (a % U64) (b % U64) = max a b % U64 ∧
      min_vruntime (a % U64) (b % U64) = min a b % U64) ∧
    (∀ (se : Ent) (l : List Ent), (∀ e ∈ l, e.vruntime = se.vruntime) →
      timeline_insert se l = l ++ [se]) := by
  constructor
  · intro a b hab hba
    have hab' : (a : Int) - b < HALF64 := by rw [HALF64_eq]; exact_mod_cast hab
    have hba' : (b : Int) - a ≤ HALF64 := by rw [HALF64_eq]; omega
    have hba2 : (b : Int) - a < HALF64 := by rw [HALF64_eq]; exact_mod_cast hba
    have hab2 : (a : Int) - b ≤ HALF64 := by rw [HALF64_eq]; omega
    have h1 := s64_u64sub_eq a b hab' hba'
    have h2 := s64_u64sub_eq b a hba2 hab2
    refine ⟨?_, ?_, ?_⟩
    · unfold entity_before
      simp only [h1, decide_eq_true_eq]
      omega
    · unfold max_vruntime
      rw [h2]
      rcases Nat.lt_or_ge a b with h | h
      · rw [if_pos (by omega), Nat.max_eq_right (by omega)]
      · rw [if_neg (by omega), Nat.max_eq_left (by omega)]
    · unfold min_vruntime
      rw [h2]
      rcases Nat.lt_or_ge b a with h | h
      · rw [if_pos (by omega), Nat.min_eq_right (by omega)]
      · rw [if_neg (by omega), Nat.min_eq_left (by omega)]
  · intro se l h
    induction l with
    | nil => rfl
    | cons e tl ih =>
      unfold timeline_insert
      rw [entity_before_eq_vruntime (h e (by simp)).symm]
      simp only [Bool.false_eq_true, if_false, List.cons_append, List.cons.injEq,
        true_and]
      exact ih (fun x hx => h x (by simp [hx]))

/-- C10 witness: after the counter wraps, the truncated value `5`
(true counter `2^64 + 5`) still orders after `2^64 - 5`, and an equal-key
entity is appended to the right. -/
theorem c10_wraparound_safe_order_inst :
    (entity_before ⟨0, 0, (18446744073709551616 + 5) % U64⟩
        ⟨1, 0, 18446744073709551611 % U64⟩ = true ↔
      18446744073709551616 + 5 < 18446744073709551611) ∧
    timeline_insert ⟨2, 1024, 77⟩ [⟨0, 1024, 77⟩, ⟨1, 1024, 77⟩] =
      [⟨0, 1024, 77⟩, ⟨1, 1024, 77⟩, ⟨2, 1024, 77⟩] :=
  ⟨(c10_wraparound_safe_order.1 (18446744073709551616 + 5) 18446744073709551611
      (by norm_num) (by norm_num)).1,
   c10_wraparound_safe_order.2 ⟨2, 1024, 77⟩ [⟨0, 1024, 77⟩, ⟨1, 1024, 77⟩]
     (by intro e he; fin_cases he <;> rfl)⟩

/-! ## C7 — small-task placement prefers a mostly-idle CPU -/

theorem bstcScanAux_finds_first (g : HmpGlobals)
    (hrs : g.restrict_tasks_spread = false) :
    ∀ (fuel : Nat) (l : List HmpCpu) (acc : P1Acc),
      l.length ≤ fuel →
      (∀ c ∈ l, c.is_max_capacity = false ∧ c.high_irqload = false ∧
        (c.idle = false ∨ c.cstate = 0)) →
      ∀ c0, l.find? mostly_idle_cpu_sync = some c0 →
      (bstcScanAux g fuel l acc).1 = some c0.id := by
  intro fuel
  induction fuel with
  | zero =>
    intro l acc hlen hc c0 hfind
    rw [List.length_eq_zero.mp (Nat.le_zero.mp hlen)] at hfind
    simp at hfind
  | succ n ih =>
    intro l acc hlen hc c0 hfind
    match l with
    | [] => simp at hfind
    | c :: tl =>
      obtain ⟨h1, h2, h3⟩ := hc c (by simp)
      have hcond1 : (c.is_max_capacity && g.hmp_capable) = false := by
        rw [h1]; rfl
      have hcond3 : ¬(c.idle = true ∧ ¬c.cstate = 0) := by
        rcases h3 with h | h <;> simp [h]
      by_cases hmi : mostly_idle_cpu_sync c
      · rw [List.find?_cons_of_pos _ hmi] at hfind
        injection hfind with hfind
        subst hfind
        simp [bstcScanAux, hcond1, h2, hcond3, hrs, hmi]
      · rw [List.find?_cons_of_neg _ hmi] at hfind
        have hlen' : tl.length ≤ n := by
          simp only [List.length_cons] at hlen
          omega
        have hgoal := ih tl acc hlen' (fun x hx => hc x (by simp [hx])) c0 hfind
        simpa [bstcScanAux, hcond1, h2, hcond3, hrs, hmi] using hgoal

theorem mem_scanOrder {g : HmpGlobals} {cpus : List HmpCpu} {x : HmpCpu}
    (hx : x ∈ scanOrder g cpus) : x ∈ cpus := by
  unfold scanOrder at hx
  rcases hfind : cpus.find? (fun c => c.id = g.task_cpu) with _ | c <;>
    rw [hfind] at hx
  · exact hx
  · rcases List.mem_cons.mp hx with h | h
    · subst h
      exact List.mem_of_find?_eq_some hfind
    · exact List.mem_of_mem_filter h

/-- C7 counterexample: three allowed CPUs — CPU 1 (the task's CPU) mostly
idle at load 50, CPU 0 mostly idle at the strictly smaller load 10, CPU 2
busy — yet the small-task wakeup path returns CPU 1, the first mostly-idle
CPU in scan order, not the least-loaded one (CPU 0). -/
theorem c7_not_least_loaded :
    select_best_cpu_small ⟨false, false, 10000000, 10, 1⟩
        [⟨0, false, [0], false, false, 0, 10, 0, 100, 3, 5, 100⟩,
         ⟨1, false, [1], false, false, 0, 50, 1, 100, 3, 5, 100⟩,
         ⟨2, false, [2], false, false, 0, 500, 2, 100, 3, 5, 100⟩]
        true false false false false = some 1 ∧
    mostly_idle_cpu_sync ⟨0, false, [0], false, false, 0, 10, 0, 100, 3, 5, 100⟩
      = true ∧
    (10 : Nat) < 50 := by
  decide

/-- C7 (amended): for a non-boosted, non-sync wakeup of a small task (no
colocation preference, no wake-to-idle), when every allowed CPU is neither
of maximum possible capacity, nor under high IRQ load, nor idle in a
C-state, and spreading is not restricted, `select_best_cpu` returns the
FIRST mostly-idle CPU in scan order (the task's CPU first, then ascending
id) whenever one exists — a mostly-idle CPU rather than a busy one, though
not necessarily the least-loaded one; in the two-CPU scenario {C0:
mostly-idle, C1: busy-but-fits (task's CPU)} it returns C0. -/
theorem c7_small_task_mostly_idle :
    (∀ (g : HmpGlobals) (cpus : List HmpCpu),
      g.restrict_tasks_spread = false →
      (∀ c ∈ cpus, c.is_max_capacity = false ∧ c.high_irqload = false ∧
        (c.idle = false ∨ c.cstate = 0)) →
      ∀ c0, (scanOrder g cpus).find? mostly_idle_cpu_sync = some c0 →
        select_best_cpu_small g cpus true false false false false =
          some c0.id ∧
        mostly_idle_cpu_sync c0 = true) ∧
    select_best_cpu_small ⟨false, false, 10000000, 10, 1⟩
        [⟨0, false, [0], false, false, 0, 10, 0, 100, 3, 5, 100⟩,
         ⟨1, false, [1], false, false, 0, 500, 2, 100, 3, 5, 100⟩]
        true false false false false = some 0 := by
  constructor
  · intro g cpus hrs hc c0 hfind
    refine ⟨?_, List.find?_some hfind⟩
    have hscan : (bstcScan g (scanOrder g cpus)
        ⟨none, RUNTIME_INF, none, INT_MAX, []⟩).1 = some c0.id :=
      bstcScanAux_finds_first g hrs (scanOrder g cpus).length
        (scanOrder g cpus) _ le_rfl
        (fun x hx => hc x (mem_scanOrder hx)) c0 hfind
    show best_small_task_cpu g cpus = some c0.id
    unfold best_small_task_cpu
    rcases hpair : bstcScan g (scanOrder g cpus)
        ⟨none, RUNTIME_INF, none, INT_MAX, []⟩ with ⟨o, acc⟩
    rw [hpair] at hscan
    simp only at hscan
    subst hscan
    rfl
  · decide

/-- C7 witness: the amended theorem applied at the two-CPU scenario. -/
theorem c7_small_task_mostly_idle_inst :
    select_best_cpu_small ⟨false, false, 10000000, 10, 1⟩
        [⟨0, false, [0], false, false, 0, 10, 0, 100, 3, 5, 100⟩,
         ⟨1, false, [1], false, false, 0, 500, 2, 100, 3, 5, 100⟩]
        true false false false false =
      some (⟨0, false, [0], false, false, 0, 10, 0, 100, 3, 5, 100⟩ : HmpCpu).id ∧
    mostly_idle_cpu_sync ⟨0, false, [0], false, false, 0, 10, 0, 100, 3, 5, 100⟩
      = true :=
  c7_small_task_mostly_idle.1 ⟨false, false, 10000000, 10, 1⟩
    [⟨0, false, [0], false, false, 0, 10, 0, 100, 3, 5, 100⟩,
     ⟨1, false, [1], false, false, 0, 500, 2, 100, 3, 5, 100⟩]
    rfl (by decide) ⟨0, false, [0], false, false, 0, 10, 0, 100, 3, 5, 100⟩
    (by decide)

/-! ## C8 — rejection of invalid tunable writes -/

/-- C8 counterexample: the handler checks the group thresholds only for
inversion, not magnitude — writing the group upmigrate percentage to 150
(with group downmigrate at 50) is accepted (`ret = 0`) and the stored value
becomes 150 > 100, refuting "a percentage above 100 ... is rejected" for
the group percentage tunables. -/
theorem c8_grp_pct_over_100_accepted :
    (sched_hmp_proc_update_handler true 20000000 true 0
        ⟨0, 4, 100, 50, 15, 80, 60, 10, 90, 0, 80⟩
        .grp_upmigrate_pct 150).ret = 0 ∧
    (sched_hmp_proc_update_handler true 20000000 true 0
        ⟨0, 4, 100, 50, 15, 80, 60, 10, 90, 0, 80⟩
        .grp_upmigrate_pct 150).st.grp_upmigrate_pct = 150 ∧
    (100 : Int) < 150 := by
  decide

/-- C8 (amended): a write through the HMP handler of a non-group percentage
above 100, of a min-nice outside [-20, 19], or one inverting the up/down
migration thresholds (for both the task and the group pair) is rejected
with `-EINVAL`, the tunable retains its prior value, and no other state
changes (no `set_hmp_defaults` recomputation, no big/small task recount);
the group percentage pair, however, is validated only against inversion,
not against the 100 bound. -/
theorem c8_invalid_write_rejected :
    ∀ (w : Int) (st : HmpTunables) (f : HmpField) (v : Int),
      v ≠ getF st f →
      ((f = .upmigrate_min_nice ∧ (v < -20 ∨ 19 < v)) ∨
       ((f = .upmigrate_pct ∨ f = .downmigrate_pct ∨ f = .small_task_pct ∨
         f = .other_pct) ∧ 100 < v) ∨
       (f = .upmigrate_pct ∧ v < st.downmigrate_pct) ∨
       (f = .downmigrate_pct ∧ st.upmigrate_pct < v) ∨
       (f = .grp_upmigrate_pct ∧ v < st.grp_downmigrate_pct) ∨
       (f = .grp_downmigrate_pct ∧ st.grp_upmigrate_pct < v)) →
      sched_hmp_proc_update_handler true w true 0 st f v =
        ⟨st, -EINVAL, false, false⟩ := by
  intro w st f v hneq hinv
  rcases hinv with ⟨hf, hv⟩ | ⟨hf, hv⟩ | ⟨hf, hv⟩ | ⟨hf, hv⟩ | ⟨hf, hv⟩ | ⟨hf, hv⟩
  · subst hf
    simp only [getF] at hneq
    unfold sched_hmp_proc_update_handler
    simp [getF, setF, EINVAL, Ne.symm hneq]
    omega
  · rcases hf with hf | hf | hf | hf <;> subst hf <;>
      simp only [getF] at hneq <;>
      unfold sched_hmp_proc_update_handler <;>
      simp [getF, setF, EINVAL, Ne.symm hneq] <;>
      omega
  · subst hf
    simp only [getF] at hneq
    unfold sched_hmp_proc_update_handler
    simp [getF, setF, EINVAL, Ne.symm hneq]
    omega
  · subst hf
    simp only [getF] at hneq
    unfold sched_hmp_proc_update_handler
    simp [getF, setF, EINVAL, Ne.symm hneq]
    omega
  · subst hf
    simp only [getF] at hneq
    unfold sched_hmp_proc_update_handler
    simp [getF, setF, EINVAL, Ne.symm hneq]
    omega
  · subst hf
    simp only [getF] at hneq
    unfold sched_hmp_proc_update_handler
    simp [getF, setF, EINVAL, Ne.symm hneq]
    omega

/-- C8 witness: writing 150 into the small-task percentage is rejected with
`-EINVAL` and leaves the whole state untouched. -/
theorem c8_invalid_write_rejected_inst :
    sched_hmp_proc_update_handler true 20000000 true 0
        ⟨0, 4, 100, 50, 15, 80, 60, 10, 90, 0, 80⟩ .small_task_pct 150 =
      ⟨⟨0, 4, 100, 50, 15, 80, 60, 10, 90, 0, 80⟩, -EINVAL, false, false⟩ :=
  c8_invalid_write_rejected 20000000 ⟨0, 4, 100, 50, 15, 80, 60, 10, 90, 0, 80⟩
    .small_task_pct 150 (by decide)
    (Or.inr (Or.inl ⟨Or.inr (Or.inr (Or.inl rfl)), by decide⟩))

end QhmpFair
